import Mathlib

/-!
Verification of the network and address resource allocator of day0ops/lok8s.

The development shallowly embeds the Go sources:
  pkg/network/network_linux.go   (calculateSubnetParameters, isPrivateIP,
                                  FindFreeLibvirtSubnet, checkLibvirtSubnetOverlap)
  pkg/cluster/minikube/manager.go (getAvailablePortPrefix)
  pkg/services/metallb.go        (generateMetalLBIPRange, findNextAvailableRange,
                                  adjustRangeForNodeIPs, InitializeTracking,
                                  SaveAllocation)
  pkg/config/config.go           (MetalLBAllocation, LoadConfig/SaveConfig)

Conventions of the embedding:
  * Go byte arithmetic on `net.IP` octets is `Nat` arithmetic modulo 256.
  * Go `net.IPNet` values are a (network-address, prefix-length) pair; the
    masking performed by `net.ParseCIDR` is the explicit function `maskIPv4`.
  * Go maps used as sets (`usedRanges`, `allNodeIPs`) are lists whose
    membership (`List.contains`) is the map's key-membership; insertion is
    cons, which has the same membership semantics.
  * I/O boundaries (libvirt, kubernetes, the TCP stack, the YAML file) are
    function parameters or explicit state: the libvirt prober's three
    outcomes become `ProbeResult`, the port prober becomes a `Nat → Bool`
    oracle, and the per-project persisted ledger becomes an
    `Option (List MetalLBAllocation)` value threaded through save/load.
  * Where a Go identifier collides with a syntactic restriction of this
    development, a close variant is used and noted at the definition
    (`pfx` for `prefix`, `ipPfx` for `ipPrefix`, `pfxLen` for `Prefix`).
-/

/-- An IPv4 address as its four octets, each conceptually in `[0, 255]`
(all operations of the embedding keep octets below 256 via `% 256` or
masking, mirroring Go's `byte` arithmetic). -/
structure IPv4 where
  o0 : Nat
  o1 : Nat
  o2 : Nat
  o3 : Nat
deriving DecidableEq

/-- The numeric value of an IPv4 address (big-endian positional). -/
def ipv4ToNat (ip : IPv4) : Nat :=
  ((ip.o0 * 256 + ip.o1) * 256 + ip.o2) * 256 + ip.o3

/-- Dotted-decimal rendering, Go's `net.IP.String` for IPv4. -/
def renderIPv4 (ip : IPv4) : String :=
  toString ip.o0 ++ "." ++ toString ip.o1 ++ "." ++ toString ip.o2 ++ "." ++ toString ip.o3

/-- Number of mask bits that fall in octet `i` of a CIDR mask of length `p`
(Go `net.CIDRMask(p, 32)`): 8 for fully covered octets, `p - 8i` for the
boundary octet, 0 beyond. -/
def octetMaskBits (p i : Nat) : Nat := min 8 (p - 8 * i)

/-- The mask byte holding `k` leading one bits (`k ≤ 8`), as in Go's
`net.CIDRMask`: `11111111 → 255`, `1111111 0 → 254`, ..., `0 → 0`. -/
def octetMask (k : Nat) : Nat := 256 - 2 ^ (8 - k)

/-- Octet `i` of the 32-bit CIDR mask of prefix length `p`. -/
def maskOctet (p i : Nat) : Nat := octetMask (octetMaskBits p i)

/-- The 4-octet netmask of prefix length `p` (Go `ipNet.Mask` rendered as
an address). -/
def maskIPv4Addr (p : Nat) : IPv4 :=
  ⟨maskOctet p 0, maskOctet p 1, maskOctet p 2, maskOctet p 3⟩

/-- Apply the CIDR mask of length `p` to an address, byte-wise `&`:
this is the network address `net.ParseCIDR` stores in `IPNet.IP`. -/
def maskIPv4 (ip : IPv4) (p : Nat) : IPv4 :=
  ⟨ip.o0 &&& maskOctet p 0, ip.o1 &&& maskOctet p 1,
   ip.o2 &&& maskOctet p 2, ip.o3 &&& maskOctet p 3⟩

/-- Go `(&net.IPNet{IP: netAddr, Mask: CIDRMask p 32}).Contains x`:
masking `x` with the network's mask yields the network address. -/
def ipnetContains (netAddr : IPv4) (p : Nat) (x : IPv4) : Bool :=
  maskIPv4 x p == netAddr

/-- Byte increment with wraparound, Go `b++` on a `byte`. -/
def byteInc (x : Nat) : Nat := (x + 1) % 256

/-- Byte decrement with wraparound, Go `b--` on a `byte`. -/
def byteDec (x : Nat) : Nat := (x + 255) % 256

/-- Byte complement, Go `^m` on a mask byte `m ≤ 255`. -/
def byteNot (m : Nat) : Nat := 255 - m

/-- The `Parameters` struct of pkg/network (string fields of the Go struct
are the `renderIPv4` of the address fields kept here; Go's `Prefix` field
is `pfxLen`). -/
structure Parameters where
  ip : IPv4
  netmask : IPv4
  pfxLen : Nat
  cidr : String
  gateway : IPv4
  clientMin : IPv4
  clientMax : IPv4
  broadcast : IPv4
  isPrivate : Bool
deriving DecidableEq

/-- `isPrivateIP` of network_linux.go: membership in 10.0.0.0/8,
172.16.0.0/12 or 192.168.0.0/16. -/
def isPrivateIP (ip : IPv4) : Bool :=
  ipnetContains ⟨10, 0, 0, 0⟩ 8 ip ||
  ipnetContains ⟨172, 16, 0, 0⟩ 12 ip ||
  ipnetContains ⟨192, 168, 0, 0⟩ 16 ip

/-- `calculateSubnetParameters` of network_linux.go on an IPv4 `*net.IPNet`
(`ip` is the already-masked network address, `p` the mask length).
Gateway increments the last octet; broadcast ORs each octet with the
complemented mask octet; clientMin increments the gateway's last octet;
clientMax decrements the broadcast's last octet twice (one decrement past
the usual last-usable address reserves the HA load-balancer VIP). All
last-octet steps are Go `byte` arithmetic, wrapping at 256. -/
def calculateSubnetParameters (ip : IPv4) (p : Nat) : Parameters :=
  let gateway : IPv4 := { ip with o3 := byteInc ip.o3 }
  let broadcast : IPv4 :=
    ⟨ip.o0 ||| byteNot (maskOctet p 0), ip.o1 ||| byteNot (maskOctet p 1),
     ip.o2 ||| byteNot (maskOctet p 2), ip.o3 ||| byteNot (maskOctet p 3)⟩
  let clientMin : IPv4 := { gateway with o3 := byteInc gateway.o3 }
  let clientMax : IPv4 := { broadcast with o3 := byteDec (byteDec broadcast.o3) }
  { ip := ip
    netmask := maskIPv4Addr p
    pfxLen := p
    cidr := renderIPv4 ip ++ "/" ++ toString p
    gateway := gateway
    clientMin := clientMin
    clientMax := clientMax
    broadcast := broadcast
    isPrivate := isPrivateIP ip }

/-- Outcome of one XML attribute after the Go-side string handling:
absent (`""`), present but unparseable (the element is skipped), or the
parsed value. -/
inductive XmlAttr (α : Type) where
  | absent
  | invalid
  | val (a : α)
deriving DecidableEq

/-- One `<ip .../>` element of a libvirt network XML, after the string
parsing done in checkLibvirtSubnetOverlap: `address` is `none` when the
attribute is empty or `net.ParseIP` fails (both skip the element);
`pfxAttr` is the `Sscanf "%d"` reading of the `prefix` attribute;
`netmaskAttr` is the prefix length derived from a parseable `netmask`
attribute via `net.IPMask(...).Size()` (0 when the mask is non-contiguous
or not IPv4). -/
structure LibvirtIPElement where
  address : Option IPv4
  pfxAttr : XmlAttr Int
  netmaskAttr : XmlAttr Nat
deriving DecidableEq

/-- The prefix-length selection of checkLibvirtSubnetOverlap: an explicit
`prefix` attribute wins, else a parseable `netmask` attribute, else the
/24 default; an unparseable attribute skips the element (`none`). -/
def elementPfxLen (e : LibvirtIPElement) : Option Int :=
  match e.pfxAttr with
  | .val k => some k
  | .invalid => none
  | .absent =>
    match e.netmaskAttr with
    | .val n => some (Int.ofNat n)
    | .invalid => none
    | .absent => some 24

/-- The existing network a libvirt `<ip>` element denotes, if any:
prefix length 0 is re-defaulted to /24, then `net.ParseCIDR` succeeds
exactly for lengths in `[0, 32]` and masks the address. -/
def elementNetwork (e : LibvirtIPElement) : Option (IPv4 × Nat) :=
  match e.address with
  | none => none
  | some a =>
    match elementPfxLen e with
    | none => none
    | some k =>
      let k := if k = 0 then 24 else k
      if 0 ≤ k ∧ k ≤ 32 then some (maskIPv4 a k.toNat, k.toNat) else none

/-- The containment test of checkLibvirtSubnetOverlap for one element
against the candidate `(network address, prefix length)`: either range
contains the other's network address. -/
def elementOverlaps (cand : IPv4 × Nat) (e : LibvirtIPElement) : Bool :=
  match elementNetwork e with
  | none => false
  | some (a, pl) => ipnetContains a pl cand.1 || ipnetContains cand.1 cand.2 a

/-- `checkLibvirtSubnetOverlap` of the network package, over the list of
networks the backend enumerates (networks whose XML failed to fetch or
unmarshal are skipped by the Go code and hence absent here); `true` is the
Go "overlaps" error, `false` the nil return. -/
def checkLibvirtSubnetOverlap (nets : List (List LibvirtIPElement)) (cand : IPv4 × Nat) : Bool :=
  nets.any fun nw => nw.any fun e => elementOverlaps cand e

/-- The three outcomes FindFreeLibvirtSubnet distinguishes from the
prober: nil error (free), an error containing "overlaps" (overlap), any
other error such as an unreachable libvirt socket (backendErr). -/
inductive ProbeResult where
  | free
  | overlap
  | backendErr
deriving DecidableEq

/-- The advancement step of FindFreeLibvirtSubnet: re-parse the current
CIDR (masking it), then add `byte(step)` to the second octet when the
prefix length is at most 16, else to the third. -/
def nextLibvirtCandidate (ip : IPv4) (p step : Nat) : IPv4 :=
  let n := maskIPv4 ip p
  if p ≤ 16 then { n with o1 := (n.o1 + step) % 256 }
  else { n with o2 := (n.o2 + step) % 256 }

/-- The `i`-th candidate the search visits, starting from `ip`. -/
def libvirtCandidate (ip : IPv4) (p step : Nat) : Nat → IPv4
  | 0 => ip
  | i + 1 => nextLibvirtCandidate (libvirtCandidate ip p step i) p step

/-- The try loop of FindFreeLibvirtSubnet: each iteration probes the
masked current candidate; no-overlap and backend-error outcomes both
return the current candidate (the latter is the documented fail-open),
overlap advances and retries; `none` is budget exhaustion. -/
def findFreeLibvirtSubnetLoop (probe : IPv4 → Nat → ProbeResult) (p step : Nat) :
    Nat → IPv4 → Option (IPv4 × Nat)
  | 0, _ => none
  | t + 1, ip =>
    match probe (maskIPv4 ip p) p with
    | .free => some (ip, p)
    | .backendErr => some (ip, p)
    | .overlap => findFreeLibvirtSubnetLoop probe p step t (nextLibvirtCandidate ip p step)

/-- `FindFreeLibvirtSubnet(startSubnet, step, tries)` for an IPv4 start
that parses (the search itself only ever constructs parseable dotted-quad
candidates); the error is the terminal no-free-subnet failure. -/
def findFreeLibvirtSubnet (probe : IPv4 → Nat → ProbeResult) (ip : IPv4) (p step tries : Nat) :
    Except String (IPv4 × Nat) :=
  match findFreeLibvirtSubnetLoop probe p step tries ip with
  | some r => .ok r
  | none => .error ("no free subnet found after " ++ toString tries ++
      " tries starting from " ++ renderIPv4 ip ++ "/" ++ toString p)

/-- `config.KindControlPlanePort`. -/
def kindControlPlanePort : Nat := 7000

/-- `getAvailablePortPrefix` of pkg/cluster/minikube/manager.go (the Go
name ends in a word this development cannot use), with the
`isPortAvailable` TCP-bind probe abstracted as the oracle `avail`: prefer
`KindControlPlanePort + clusterIndex`, else the first bindable port of
29000..30100, else the terminal no-port error. -/
def getAvailablePortPfx (avail : Nat → Bool) (clusterIndex : Nat) : Except String String :=
  let preferredPort := kindControlPlanePort + clusterIndex
  if avail preferredPort then .ok (toString preferredPort)
  else
    match (List.range' 29000 1101).find? avail with
    | some port => .ok (toString port)
    | none => .error "no available ports found in range 29000 - 30100"

/-- `config.MetalLBAllocation` (YAML field `ip_prefix` is `ipPfx` here). -/
structure MetalLBAllocation where
  clusterName : String
  ipPfx : String
  startOctet : Nat
  endOctet : Nat
  nodeIPs : List Nat
  ipRange : String
deriving DecidableEq

/-- The MetalLBManager state: the octet window bounds and the in-memory
tracking maps (`ipAllocations` keyed by cluster name; `usedRanges` and
`allNodeIPs` are key sets, represented as lists up to membership). -/
structure MetalLBManager where
  minOctetRange : Nat
  maxOctetRange : Nat
  ipAllocations : List (String × MetalLBAllocation)
  usedRanges : List String
  allNodeIPs : List Nat
deriving DecidableEq

/-- The used-range key `fmt.Sprintf("%s.%d-%d", ...)`. -/
def rangeKey (ipPfx : String) (startOctet endOctet : Nat) : String :=
  ipPfx ++ "." ++ toString startOctet ++ "-" ++ toString endOctet

/-- The rendered pool range `fmt.Sprintf("%s.%d-%s.%d", ...)`. -/
def renderIPRange (ipPfx : String) (s e : Nat) : String :=
  ipPfx ++ "." ++ toString s ++ "-" ++ ipPfx ++ "." ++ toString e

/-- Accumulating split on `'.'` (semantics of Go `strings.Split(s, ".")`,
written by structural recursion so it evaluates in the kernel). -/
def splitDotsAux : List Char → List Char → List String
  | [], acc => [String.mk acc.reverse]
  | c :: cs, acc =>
    if c = '.' then String.mk acc.reverse :: splitDotsAux cs []
    else splitDotsAux cs (c :: acc)

/-- Go `strings.Split(s, ".")`. -/
def splitDots (s : String) : List String := splitDotsAux s.toList []

/-- First three dotted components of the observed node IP
(`strings.Split` + length check + `fmt.Sprintf("%s.%s.%s", ...)`). -/
def splitIpPfx (ip : String) : Option String :=
  match splitDots ip with
  | a :: b :: c :: _ => some (a ++ "." ++ b ++ "." ++ c)
  | _ => none

/-- Whether some octet of `[s, e]` is a tracked node IP (the inner loops
of generateMetalLBIPRange / adjustRangeForNodeIPs). -/
def hasNodeIPInRange (s e : Nat) (nodeIPs : List Nat) : Bool :=
  (List.range' s (e + 1 - s)).any fun o => nodeIPs.contains o

/-- The loop body of `findNextAvailableRange`, fuel-indexed: a candidate
whose key is used, or which intersects a node IP, is advanced by one
octet (wrapping the window back to `minOctetRange` when its end passes
`maxOctetRange`); at fuel 0 the Go loop exits and falls through to the
soft-failure return of the current (last advanced) window. -/
def findNextAvailableRangeLoop (mm : MetalLBManager) (nodeIPs : List Nat) (ipPfx : String)
    (rangeSize : Nat) : Nat → Nat → Nat → Nat × Nat
  | 0, s, e => (s, e)
  | fuel + 1, s, e =>
    if mm.usedRanges.contains (rangeKey ipPfx s e) then
      let s' := s + 1
      let e' := s' + rangeSize - 1
      if e' > mm.maxOctetRange then
        findNextAvailableRangeLoop mm nodeIPs ipPfx rangeSize fuel
          mm.minOctetRange (mm.minOctetRange + rangeSize - 1)
      else findNextAvailableRangeLoop mm nodeIPs ipPfx rangeSize fuel s' e'
    else if hasNodeIPInRange s e nodeIPs then
      let s' := s + 1
      let e' := s' + rangeSize - 1
      if e' > mm.maxOctetRange then
        findNextAvailableRangeLoop mm nodeIPs ipPfx rangeSize fuel
          mm.minOctetRange (mm.minOctetRange + rangeSize - 1)
      else findNextAvailableRangeLoop mm nodeIPs ipPfx rangeSize fuel s' e'
    else (s, e)

/-- `findNextAvailableRange` of metallb.go: the loop with its fixed
100-attempt budget. -/
def findNextAvailableRange (mm : MetalLBManager) (nodeIPs : List Nat) (ipPfx : String)
    (rangeSize s e : Nat) : Nat × Nat :=
  findNextAvailableRangeLoop mm nodeIPs ipPfx rangeSize 100 s e

/-- The same search, but distinguishing success within the budget
(`some`) from the soft-failure fallback (`none`); used to state which
runs of the search are covered by the freshness guarantee. -/
def findNextAvailableRangeWithin (mm : MetalLBManager) (nodeIPs : List Nat) (ipPfx : String)
    (rangeSize : Nat) : Nat → Nat → Nat → Option (Nat × Nat)
  | 0, _, _ => none
  | fuel + 1, s, e =>
    if mm.usedRanges.contains (rangeKey ipPfx s e) then
      let s' := s + 1
      let e' := s' + rangeSize - 1
      if e' > mm.maxOctetRange then
        findNextAvailableRangeWithin mm nodeIPs ipPfx rangeSize fuel
          mm.minOctetRange (mm.minOctetRange + rangeSize - 1)
      else findNextAvailableRangeWithin mm nodeIPs ipPfx rangeSize fuel s' e'
    else if hasNodeIPInRange s e nodeIPs then
      let s' := s + 1
      let e' := s' + rangeSize - 1
      if e' > mm.maxOctetRange then
        findNextAvailableRangeWithin mm nodeIPs ipPfx rangeSize fuel
          mm.minOctetRange (mm.minOctetRange + rangeSize - 1)
      else findNextAvailableRangeWithin mm nodeIPs ipPfx rangeSize fuel s' e'
    else some (s, e)

/-- The range-conflict step of generateMetalLBIPRange (lines 395-400):
only a candidate whose exact key is recorded triggers the search. -/
def resolveRangeConflict (mm : MetalLBManager) (nodeIPs : List Nat) (ipPfx : String)
    (rangeSize s e : Nat) : Nat × Nat :=
  if mm.usedRanges.contains (rangeKey ipPfx s e) then
    findNextAvailableRange mm nodeIPs ipPfx rangeSize s e
  else (s, e)

/-- The free test of adjustRangeForNodeIPs: no node IP in the window and
no octet past `maxOctetRange`. -/
def adjustRangeFree (mm : MetalLBManager) (nodeIPs : List Nat) (s e : Nat) : Bool :=
  (List.range' s (e + 1 - s)).all fun o => !(nodeIPs.contains o) && decide (o ≤ mm.maxOctetRange)

/-- The 10-attempt shift loop of adjustRangeForNodeIPs; `none` when the
budget is exhausted (the Go code then keeps the original window). -/
def adjustRangeSearch (mm : MetalLBManager) (nodeIPs : List Nat) (rangeSize : Nat) :
    Nat → Nat → Nat → Option (Nat × Nat)
  | 0, _, _ => none
  | fuel + 1, ns, ne =>
    if adjustRangeFree mm nodeIPs ns ne then some (ns, ne)
    else
      let ns' := ns + 1
      let ne' := ns' + rangeSize - 1
      if ne' > mm.maxOctetRange then
        adjustRangeSearch mm nodeIPs rangeSize fuel
          mm.minOctetRange (mm.minOctetRange + rangeSize - 1)
      else adjustRangeSearch mm nodeIPs rangeSize fuel ns' ne'

/-- `adjustRangeForNodeIPs` of metallb.go: if the window holds a node IP,
shift it (up to 10 attempts, wrapping), else or on exhaustion keep the
original window. -/
def adjustRangeForNodeIPs (mm : MetalLBManager) (startOctet endOctet : Nat)
    (nodeIPs : List Nat) : Nat × Nat :=
  if hasNodeIPInRange startOctet endOctet nodeIPs then
    match adjustRangeSearch mm nodeIPs (endOctet - startOctet + 1) 10 startOctet endOctet with
    | some r => r
    | none => (startOctet, endOctet)
  else (startOctet, endOctet)

/-- `generateMetalLBIPRange` of metallb.go, with the node IPs fetched from
the live cluster passed in as `currentNodeIPs` (the Go code falls back to
an empty set when that query fails). Octets are Go `int`s that stay
non-negative on every path exercised with cluster ordinals ≥ 1; they are
`Nat` here. -/
def generateMetalLBIPRange (mm : MetalLBManager) (clusterName minikubeIP : String)
    (clusterNumber totalClusters : Nat) (currentNodeIPs : List Nat) :
    Except String (String × MetalLBAllocation) :=
  match splitIpPfx minikubeIP with
  | none => .error ("invalid minikube IP format: " ++ minikubeIP)
  | some ipPfx =>
    let combinedNodeIPs := mm.allNodeIPs ++ currentNodeIPs
    let totalAvailableIPs := mm.maxOctetRange - mm.minOctetRange + 1
    let ipsPerCluster := 20
    let maxClusters := totalAvailableIPs / ipsPerCluster
    if totalClusters > maxClusters then
      .error ("not enough IPs available: need " ++ toString totalClusters ++
        " clusters but only " ++ toString maxClusters ++ " can fit in range " ++
        toString mm.minOctetRange ++ "-" ++ toString mm.maxOctetRange ++
        " (20 IPs per cluster)")
    else
      let startOctet := mm.minOctetRange + (clusterNumber - 1) * ipsPerCluster
      let endOctet0 := startOctet + ipsPerCluster - 1
      let endOctet := if endOctet0 > mm.maxOctetRange then mm.maxOctetRange else endOctet0
      let w1 := resolveRangeConflict mm combinedNodeIPs ipPfx ipsPerCluster startOctet endOctet
      let w2 := adjustRangeForNodeIPs mm w1.1 w1.2 combinedNodeIPs
      let ipRange := renderIPRange ipPfx w2.1 w2.2
      .ok (ipRange,
        { clusterName := clusterName, ipPfx := ipPfx, startOctet := w2.1,
          endOctet := w2.2, nodeIPs := currentNodeIPs, ipRange := ipRange })

/-- Go map write `m[k] = a` on the `ipAllocations` association list. -/
def setAllocation : List (String × MetalLBAllocation) → String → MetalLBAllocation →
    List (String × MetalLBAllocation)
  | [], k, a => [(k, a)]
  | (k', a') :: xs, k, a =>
    if k' == k then (k, a) :: xs else (k', a') :: setAllocation xs k a

/-- The per-allocation in-memory index update shared by InitializeTracking
(lines 90-97) and SaveAllocation (lines 139-144): record the allocation
under its cluster name, mark its range key used, mark its node IPs. -/
def trackAllocation (mm : MetalLBManager) (a : MetalLBAllocation) : MetalLBManager :=
  { mm with
    ipAllocations := setAllocation mm.ipAllocations a.clusterName a
    usedRanges := rangeKey a.ipPfx a.startOctet a.endOctet :: mm.usedRanges
    allNodeIPs := mm.allNodeIPs ++ a.nodeIPs }

/-- `InitializeTracking`: clear the in-memory indexes, then rebuild them
from the persisted allocation list of the project (`none` when no config
file exists). -/
def initializeTracking (store : Option (List MetalLBAllocation)) (mm : MetalLBManager) :
    MetalLBManager :=
  let cleared := { mm with ipAllocations := [], usedRanges := [], allNodeIPs := [] }
  match store with
  | none => cleared
  | some allocs => allocs.foldl trackAllocation cleared

/-- The upsert of SaveAllocation on the persisted list: replace the first
entry with the same cluster name, else append. -/
def upsertAllocation : List MetalLBAllocation → MetalLBAllocation → List MetalLBAllocation
  | [], a => [a]
  | x :: xs, a => if x.clusterName == a.clusterName then a :: xs else x :: upsertAllocation xs a

/-- `SaveAllocation`: upsert into the persisted project record (created if
absent), write it back, then update the in-memory indexes. -/
def saveAllocation (store : Option (List MetalLBAllocation)) (mm : MetalLBManager)
    (a : MetalLBAllocation) : Option (List MetalLBAllocation) × MetalLBManager :=
  (some (upsertAllocation (store.getD []) a), trackAllocation mm a)

/-- The allocation slice of `ConfigureMetalLB`: generate the range, and
only on success persist it; an error leaves the ledger untouched. -/
def configureMetalLB (store : Option (List MetalLBAllocation)) (mm : MetalLBManager)
    (clusterName minikubeIP : String) (clusterNumber totalClusters : Nat)
    (currentNodeIPs : List Nat) :
    Option (List MetalLBAllocation) × MetalLBManager × Except String String :=
  match generateMetalLBIPRange mm clusterName minikubeIP clusterNumber totalClusters
      currentNodeIPs with
  | .error e => (store, mm, .error e)
  | .ok (ipRange, alloc) =>
    let sm := saveAllocation store mm alloc
    (sm.1, sm.2, .ok ipRange)

lemma octetMask_le_252 : ∀ k, k < 7 → octetMask k ≤ 252 := by decide

set_option maxRecDepth 4000 in
lemma lastOctetFacts : ∀ k, k < 7 → ∀ x, x < 256 → x &&& octetMask k = x →
    x ≤ 252 ∧ 3 ≤ x ||| byteNot (octetMask k) ∧ x ||| byteNot (octetMask k) ≤ 255 := by decide

/-- Claim C3 (amended): for every IPv4 CIDR of prefix length at most 30
(so that the last-octet byte arithmetic cannot wrap), the calculator
derives gateway = network address + 1, clientMin = gateway + 1 and
clientMax = broadcast − 2 as 32-bit address arithmetic; and the concrete
subnet 10.89.0.0/16 yields gateway 10.89.0.1, netmask 255.255.0.0,
clientMin 10.89.0.2, broadcast 10.89.255.255 and clientMax 10.89.255.253. -/
theorem claim3_subnet_parameters :
    (∀ (ip : IPv4) (p : Nat), p ≤ 30 → maskIPv4 ip p = ip →
      ipv4ToNat ((calculateSubnetParameters ip p).gateway) = ipv4ToNat ip + 1 ∧
      ipv4ToNat ((calculateSubnetParameters ip p).clientMin) =
        ipv4ToNat ((calculateSubnetParameters ip p).gateway) + 1 ∧
      ipv4ToNat ((calculateSubnetParameters ip p).clientMax) + 2 =
        ipv4ToNat ((calculateSubnetParameters ip p).broadcast)) ∧
    (renderIPv4 ((calculateSubnetParameters ⟨10, 89, 0, 0⟩ 16).gateway) = "10.89.0.1" ∧
     renderIPv4 ((calculateSubnetParameters ⟨10, 89, 0, 0⟩ 16).netmask) = "255.255.0.0" ∧
     renderIPv4 ((calculateSubnetParameters ⟨10, 89, 0, 0⟩ 16).clientMin) = "10.89.0.2" ∧
     renderIPv4 ((calculateSubnetParameters ⟨10, 89, 0, 0⟩ 16).broadcast) = "10.89.255.255" ∧
     renderIPv4 ((calculateSubnetParameters ⟨10, 89, 0, 0⟩ 16).clientMax) = "10.89.255.253") := by
  constructor
  · intro ip p hp hmask
    obtain ⟨o0, o1, o2, o3⟩ := ip
    have h3 : o3 &&& maskOctet p 3 = o3 := congrArg IPv4.o3 hmask
    have hk : octetMaskBits p 3 < 7 := by
      unfold octetMaskBits; omega
    have hx : o3 < 256 := by
      have h1 : o3 ≤ octetMask (octetMaskBits p 3) := by
        conv_lhs => rw [← h3]
        exact Nat.and_le_right
      have h2 := octetMask_le_252 _ hk
      omega
    have hfacts := lastOctetFacts _ hk o3 hx (by
      show o3 &&& octetMask (octetMaskBits p 3) = o3
      exact h3)
    obtain ⟨h252, hge3, hle255⟩ := hfacts
    simp only [calculateSubnetParameters, ipv4ToNat, byteInc, byteDec, maskOctet]
    refine ⟨by omega, by omega, by omega⟩
  · decide

/-- Claim C3 counterexample: 10.0.0.0/31 is a valid (already-masked) IPv4
CIDR, yet the code's clientMax differs from broadcast − 2: the two byte
decrements wrap inside the last octet (broadcast 10.0.0.1 gives clientMax
10.0.0.255, not 9.255.255.255), so the claim does not hold for every
valid IPv4 CIDR. -/
theorem claim3_counterexample :
    maskIPv4 ⟨10, 0, 0, 0⟩ 31 = ⟨10, 0, 0, 0⟩ ∧
    ¬ (ipv4ToNat ((calculateSubnetParameters ⟨10, 0, 0, 0⟩ 31).clientMax) + 2 =
       ipv4ToNat ((calculateSubnetParameters ⟨10, 0, 0, 0⟩ 31).broadcast)) := by
  decide

/-- Witness for claim C3: the amended statement applied to 10.89.0.0/16. -/
theorem claim3_subnet_parameters_witness :
    (maskIPv4 ⟨10, 89, 0, 0⟩ 16 = ⟨10, 89, 0, 0⟩) ∧
    (ipv4ToNat ((calculateSubnetParameters ⟨10, 89, 0, 0⟩ 16).gateway) =
       ipv4ToNat ⟨10, 89, 0, 0⟩ + 1 ∧
     ipv4ToNat ((calculateSubnetParameters ⟨10, 89, 0, 0⟩ 16).clientMin) =
       ipv4ToNat ((calculateSubnetParameters ⟨10, 89, 0, 0⟩ 16).gateway) + 1 ∧
     ipv4ToNat ((calculateSubnetParameters ⟨10, 89, 0, 0⟩ 16).clientMax) + 2 =
       ipv4ToNat ((calculateSubnetParameters ⟨10, 89, 0, 0⟩ 16).broadcast)) :=
  ⟨by decide, claim3_subnet_parameters.1 ⟨10, 89, 0, 0⟩ 16 (by decide) (by decide)⟩

lemma libvirtCandidate_shift (ip : IPv4) (p step : Nat) :
    ∀ i, libvirtCandidate (nextLibvirtCandidate ip p step) p step i =
      libvirtCandidate ip p step (i + 1) := by
  intro i
  induction i with
  | zero => rfl
  | succ i ih =>
    show nextLibvirtCandidate (libvirtCandidate (nextLibvirtCandidate ip p step) p step i) p step
        = _
    rw [ih]
    rfl

lemma findFreeLoop_none_iff (probe : IPv4 → Nat → ProbeResult) (p step : Nat) :
    ∀ (t : Nat) (ip : IPv4),
      findFreeLibvirtSubnetLoop probe p step t ip = none ↔
      ∀ i, i < t → probe (maskIPv4 (libvirtCandidate ip p step i) p) p = .overlap := by
  intro t
  induction t with
  | zero => intro ip; simp [findFreeLibvirtSubnetLoop]
  | succ t ih =>
    intro ip
    show (match probe (maskIPv4 ip p) p with
      | .free => some (ip, p)
      | .backendErr => some (ip, p)
      | .overlap =>
          findFreeLibvirtSubnetLoop probe p step t (nextLibvirtCandidate ip p step)) = none ↔ _
    cases hpr : probe (maskIPv4 ip p) p with
    | free =>
      simp only [reduceCtorEq, false_iff, not_forall]
      exact ⟨0, Nat.succ_pos t, by simp [libvirtCandidate, hpr]⟩
    | backendErr =>
      simp only [reduceCtorEq, false_iff, not_forall]
      exact ⟨0, Nat.succ_pos t, by simp [libvirtCandidate, hpr]⟩
    | overlap =>
      rw [ih]
      constructor
      · intro h i hi
        cases i with
        | zero => simpa [libvirtCandidate] using hpr
        | succ i =>
          have := h i (by omega)
          rwa [libvirtCandidate_shift] at this
      · intro h i hi
        rw [libvirtCandidate_shift]
        exact h (i + 1) (by omega)

/-- Claim C5: the free-subnet search returns the current candidate
immediately when the prober reports no overlap (in particular a free
starting candidate is returned on the very first probe), returns the
current candidate immediately on a backend-unavailable error (fail-open),
and ends in the terminal no-free-subnet error exactly when every one of
the `tries` probed candidates is reported as overlapping. -/
theorem claim5_find_free_subnet :
    ∀ (probe : IPv4 → Nat → ProbeResult) (ip : IPv4) (p step tries : Nat),
      (probe (maskIPv4 ip p) p = .free →
        findFreeLibvirtSubnet probe ip p step (tries + 1) = .ok (ip, p)) ∧
      (probe (maskIPv4 ip p) p = .backendErr →
        findFreeLibvirtSubnet probe ip p step (tries + 1) = .ok (ip, p)) ∧
      ((∃ msg, findFreeLibvirtSubnet probe ip p step tries = .error msg) ↔
        ∀ i, i < tries → probe (maskIPv4 (libvirtCandidate ip p step i) p) p = .overlap) := by
  intro probe ip p step tries
  refine ⟨fun h => ?_, fun h => ?_, ?_⟩
  · simp [findFreeLibvirtSubnet, findFreeLibvirtSubnetLoop, h]
  · simp [findFreeLibvirtSubnet, findFreeLibvirtSubnetLoop, h]
  · rw [← findFreeLoop_none_iff]
    unfold findFreeLibvirtSubnet
    cases hl : findFreeLibvirtSubnetLoop probe p step tries ip <;> simp

/-- Claim C8: on an overlap report the search retries with the candidate
advanced by `step` (one loop iteration is consumed), and the advanced
candidate changes exactly the second octet when the prefix length is at
most 16 and exactly the third octet otherwise, keeping the prefix
length. -/
theorem claim8_overlap_advances :
    ∀ (probe : IPv4 → Nat → ProbeResult) (ip : IPv4) (p step t : Nat),
      probe (maskIPv4 ip p) p = .overlap →
      findFreeLibvirtSubnetLoop probe p step (t + 1) ip =
        findFreeLibvirtSubnetLoop probe p step t (nextLibvirtCandidate ip p step) ∧
      (p ≤ 16 → nextLibvirtCandidate ip p step =
        { maskIPv4 ip p with o1 := ((maskIPv4 ip p).o1 + step) % 256 }) ∧
      (16 < p → nextLibvirtCandidate ip p step =
        { maskIPv4 ip p with o2 := ((maskIPv4 ip p).o2 + step) % 256 }) := by
  intro probe ip p step t h
  refine ⟨?_, fun hp => ?_, fun hp => ?_⟩
  · simp [findFreeLibvirtSubnetLoop, h]
  · simp [nextLibvirtCandidate, hp]
  · unfold nextLibvirtCandidate
    rw [if_neg (by omega)]

/-- A prober that reports every subnet with second octet 250 as
overlapping and everything else as free (witness environment). -/
def probeSecondOctet250 : IPv4 → Nat → ProbeResult :=
  fun ip _ => if ip.o1 = 250 then .overlap else .free

/-- A prober that reports every candidate as overlapping (witness
environment). -/
def probeAlwaysOverlap : IPv4 → Nat → ProbeResult := fun _ _ => .overlap

/-- A prober whose backend is unreachable (witness environment). -/
def probeBackendDown : IPv4 → Nat → ProbeResult := fun _ _ => .backendErr

lemma octetMask_le_255 : ∀ k, octetMask k ≤ 255 := by
  intro k
  unfold octetMask
  have : 1 ≤ 2 ^ (8 - k) := Nat.one_le_two_pow
  omega

/-- Claim C10: the per-iteration advancement is byte arithmetic modulo
256 — the advanced octet is `(octet + step) % 256`, and when the sum
passes 255 it wraps back through 0 (for a one-byte step, the new octet is
the sum minus 256); concretely, from 10.250.0.0/16 with step 8 the next
candidate is 10.2.0.0/16, and the search continues there rather than
erroring, so it can revisit lower-numbered subnets. -/
theorem claim10_octet_wraparound :
    (∀ (ip : IPv4) (p step : Nat), p ≤ 16 →
      (nextLibvirtCandidate ip p step).o1 = ((maskIPv4 ip p).o1 + step) % 256) ∧
    (∀ (ip : IPv4) (p step : Nat), p ≤ 16 → step ≤ 255 →
      256 ≤ (maskIPv4 ip p).o1 + step →
      (nextLibvirtCandidate ip p step).o1 + 256 = (maskIPv4 ip p).o1 + step) ∧
    (nextLibvirtCandidate ⟨10, 250, 0, 0⟩ 16 8 = ⟨10, 2, 0, 0⟩) ∧
    (findFreeLibvirtSubnet probeSecondOctet250 ⟨10, 250, 0, 0⟩ 16 8 50 =
      .ok (⟨10, 2, 0, 0⟩, 16)) := by
  have h1 : ∀ (ip : IPv4) (p step : Nat), p ≤ 16 →
      (nextLibvirtCandidate ip p step).o1 = ((maskIPv4 ip p).o1 + step) % 256 := by
    intro ip p step hp
    simp [nextLibvirtCandidate, hp]
  refine ⟨h1, fun ip p step hp hstep hwrap => ?_, by decide, by rfl⟩
  have hb : (maskIPv4 ip p).o1 ≤ 255 := by
    have := octetMask_le_255 (octetMaskBits p 1)
    have h2 : (maskIPv4 ip p).o1 ≤ octetMask (octetMaskBits p 1) := Nat.and_le_right
    omega
  rw [h1 ip p step hp]
  omega

/-- Witness for claim C5: the three behaviors at concrete probers — a
free first candidate returned on the first probe, a backend-down prober
returning the first candidate, and a three-try exhaustion against an
always-overlapping prober ending in the terminal error. -/
theorem claim5_find_free_subnet_witness :
    (probeSecondOctet250 (maskIPv4 ⟨10, 2, 0, 0⟩ 16) 16 = .free ∧
     findFreeLibvirtSubnet probeSecondOctet250 ⟨10, 2, 0, 0⟩ 16 8 1 = .ok (⟨10, 2, 0, 0⟩, 16)) ∧
    (probeBackendDown (maskIPv4 ⟨10, 89, 0, 0⟩ 16) 16 = .backendErr ∧
     findFreeLibvirtSubnet probeBackendDown ⟨10, 89, 0, 0⟩ 16 1 1 = .ok (⟨10, 89, 0, 0⟩, 16)) ∧
    (∃ msg, findFreeLibvirtSubnet probeAlwaysOverlap ⟨10, 0, 0, 0⟩ 16 1 3 = .error msg) :=
  ⟨⟨by decide, (claim5_find_free_subnet probeSecondOctet250 ⟨10, 2, 0, 0⟩ 16 8 0).1 (by decide)⟩,
   ⟨by decide, (claim5_find_free_subnet probeBackendDown ⟨10, 89, 0, 0⟩ 16 1 0).2.1 (by decide)⟩,
   ((claim5_find_free_subnet probeAlwaysOverlap ⟨10, 0, 0, 0⟩ 16 1 3).2.2).mpr (by decide)⟩

/-- Witness for claim C8: one overlap report at 10.89.0.0/16 with step 1
consumes a try and advances the second octet to 90. -/
theorem claim8_overlap_advances_witness :
    probeAlwaysOverlap (maskIPv4 ⟨10, 89, 0, 0⟩ 16) 16 = .overlap ∧
    (findFreeLibvirtSubnetLoop probeAlwaysOverlap 16 1 1 ⟨10, 89, 0, 0⟩ =
      findFreeLibvirtSubnetLoop probeAlwaysOverlap 16 1 0
        (nextLibvirtCandidate ⟨10, 89, 0, 0⟩ 16 1)) ∧
    nextLibvirtCandidate ⟨10, 89, 0, 0⟩ 16 1 =
      { maskIPv4 ⟨10, 89, 0, 0⟩ 16 with o1 := ((maskIPv4 ⟨10, 89, 0, 0⟩ 16).o1 + 1) % 256 } :=
  have h := claim8_overlap_advances probeAlwaysOverlap ⟨10, 89, 0, 0⟩ 16 1 0 (by decide)
  ⟨by decide, h.1, h.2.1 (by decide)⟩

/-- Witness for claim C10: the wraparound equations applied at
10.250.0.0/16 with step 8 (250 + 8 = 258 wraps to 2). -/
theorem claim10_octet_wraparound_witness :
    ((16 : Nat) ≤ 16 ∧ (8 : Nat) ≤ 255 ∧ 256 ≤ (maskIPv4 ⟨10, 250, 0, 0⟩ 16).o1 + 8) ∧
    (nextLibvirtCandidate ⟨10, 250, 0, 0⟩ 16 8).o1 =
      ((maskIPv4 ⟨10, 250, 0, 0⟩ 16).o1 + 8) % 256 ∧
    (nextLibvirtCandidate ⟨10, 250, 0, 0⟩ 16 8).o1 + 256 =
      (maskIPv4 ⟨10, 250, 0, 0⟩ 16).o1 + 8 :=
  ⟨by decide, claim10_octet_wraparound.1 ⟨10, 250, 0, 0⟩ 16 8 (by decide),
   claim10_octet_wraparound.2.1 ⟨10, 250, 0, 0⟩ 16 8 (by decide) (by decide) (by decide)⟩

lemma elementOverlaps_iff (cand : IPv4 × Nat) (e : LibvirtIPElement) :
    elementOverlaps cand e = true ↔
    ∃ a pl, elementNetwork e = some (a, pl) ∧
      (ipnetContains a pl cand.1 = true ∨ ipnetContains cand.1 cand.2 a = true) := by
  unfold elementOverlaps
  cases h : elementNetwork e with
  | none => simp
  | some v =>
    obtain ⟨a, pl⟩ := v
    simp only [Option.some.injEq, Prod.mk.injEq, Bool.or_eq_true]
    exact ⟨fun hor => ⟨a, pl, ⟨rfl, rfl⟩, hor⟩,
      by rintro ⟨a', pl', ⟨rfl, rfl⟩, hor⟩; exact hor⟩

/-- Claim C7: the prober reports overlap for a candidate iff some
enumerated network has an element with a parseable address whose derived
range contains the candidate's network address or vice versa (symmetric
containment); an element carrying neither a prefix nor a netmask
attribute is treated as a /24 network; concretely, a /16 candidate inside
an existing /8 overlaps, an existing /24 inside the candidate overlaps,
and a disjoint /16 does not (containment, not equality). -/
theorem claim7_subnet_overlap :
    ∀ (nets : List (List LibvirtIPElement)) (cand : IPv4 × Nat),
      (checkLibvirtSubnetOverlap nets cand = true ↔
        ∃ nw ∈ nets, ∃ e ∈ nw, ∃ a pl, elementNetwork e = some (a, pl) ∧
          (ipnetContains a pl cand.1 = true ∨ ipnetContains cand.1 cand.2 a = true)) ∧
      (∀ a : IPv4, elementNetwork ⟨some a, .absent, .absent⟩ = some (maskIPv4 a 24, 24)) ∧
      (checkLibvirtSubnetOverlap [[⟨some ⟨10, 0, 0, 0⟩, .val 8, .absent⟩]]
          (⟨10, 89, 0, 0⟩, 16) = true ∧
       checkLibvirtSubnetOverlap [[⟨some ⟨10, 89, 1, 0⟩, .val 24, .absent⟩]]
          (⟨10, 89, 0, 0⟩, 16) = true ∧
       checkLibvirtSubnetOverlap [[⟨some ⟨10, 90, 0, 0⟩, .val 16, .absent⟩]]
          (⟨10, 89, 0, 0⟩, 16) = false) := by
  intro nets cand
  refine ⟨?_, fun a => rfl, by decide, by decide, by decide⟩
  simp [checkLibvirtSubnetOverlap, List.any_eq_true, elementOverlaps_iff]

lemma find?_range'_first (avail : Nat → Bool) : ∀ (n s q : Nat), s ≤ q → q < s + n →
    avail q = true → (∀ r, s ≤ r → r < q → avail r = false) →
    (List.range' s n).find? avail = some q := by
  intro n
  induction n with
  | zero => intro s q h1 h2 h3 h4; omega
  | succ n ih =>
    intro s q h1 h2 h3 h4
    rw [List.range'_succ, List.find?_cons]
    cases hs : avail s with
    | true =>
      have hsq : s = q := by
        by_contra hne
        have hlt : s < q := by omega
        have := h4 s (le_refl s) hlt
        rw [hs] at this
        cases this
      simp [hsq]
    | false =>
      exact ih (s + 1) q (by
          rcases Nat.eq_or_lt_of_le h1 with h | h
          · rw [h] at hs; rw [h3] at hs; cases hs
          · omega)
        (by omega) h3 (fun r hr1 hr2 => h4 r (by omega) hr2)

/-- Claim C9: control-plane port selection returns
`basePort + clusterOrdinal` whenever that port is bindable; otherwise it
returns the first bindable port of the 29000..30100 fallback window
scanned in increasing order; and it fails with the no-port error exactly
when the preferred port and the entire fallback window are unbindable. -/
theorem claim9_port_selection :
    ∀ (avail : Nat → Bool) (clusterIndex : Nat),
      (avail (kindControlPlanePort + clusterIndex) = true →
        getAvailablePortPfx avail clusterIndex =
          .ok (toString (kindControlPlanePort + clusterIndex))) ∧
      (avail (kindControlPlanePort + clusterIndex) = false →
        ∀ q, 29000 ≤ q → q ≤ 30100 → avail q = true →
          (∀ r, 29000 ≤ r → r < q → avail r = false) →
          getAvailablePortPfx avail clusterIndex = .ok (toString q)) ∧
      (getAvailablePortPfx avail clusterIndex =
          .error "no available ports found in range 29000 - 30100" ↔
        avail (kindControlPlanePort + clusterIndex) = false ∧
          ∀ q, 29000 ≤ q → q ≤ 30100 → avail q = false) := by
  intro avail clusterIndex
  refine ⟨fun h => ?_, fun h q hq1 hq2 hq3 hq4 => ?_, ?_⟩
  · simp [getAvailablePortPfx, h]
  · have hf := find?_range'_first avail 1101 29000 q (by omega) (by omega) hq3
      (fun r hr1 hr2 => hq4 r hr1 hr2)
    simp [getAvailablePortPfx, h, hf]
  · cases h : avail (kindControlPlanePort + clusterIndex) with
    | true => simp [getAvailablePortPfx, h]
    | false =>
      cases hf : (List.range' 29000 1101).find? avail with
      | some v =>
        have hv := List.find?_some hf
        have hmem := List.mem_of_find?_eq_some hf
        rw [List.mem_range'_1] at hmem
        simp only [getAvailablePortPfx, h, hf]
        constructor
        · intro hcontra; cases hcontra
        · rintro ⟨-, hall⟩
          have := hall v (by omega) (by omega)
          rw [hv] at this
          cases this
      | none =>
        have hnone := List.find?_eq_none.mp hf
        simp only [getAvailablePortPfx, h, hf]
        constructor
        · intro _
          refine ⟨by trivial, fun q hq1 hq2 => ?_⟩
          have := hnone q (List.mem_range'_1.mpr ⟨hq1, by omega⟩)
          simpa using this
        · intro _
          trivial

/-- Witness for claim C9: a bindable preferred port 7003 is returned; a
fully unbindable host yields the no-port error; with the preferred port
taken, the first bindable fallback port 29005 is returned. -/
theorem claim9_port_selection_witness :
    ((fun q => q == 7003) (kindControlPlanePort + 3) = true ∧
     getAvailablePortPfx (fun q => q == 7003) 3 = .ok (toString (kindControlPlanePort + 3))) ∧
    (getAvailablePortPfx (fun _ => false) 0 =
      .error "no available ports found in range 29000 - 30100") ∧
    (getAvailablePortPfx (fun q => q == 29005) 0 = .ok (toString 29005)) :=
  ⟨⟨by decide, (claim9_port_selection (fun q => q == 7003) 3).1 (by decide)⟩,
   ((claim9_port_selection (fun _ => false) 0).2.2).mpr ⟨rfl, fun _ _ _ => rfl⟩,
   (claim9_port_selection (fun q => q == 29005) 0).2.1 (by decide) 29005 (by omega) (by omega)
     (by decide)
     (fun r h1 h2 => by
       simp only [beq_eq_false_iff_ne]
       omega)⟩

lemma generate_ok_eq (mm : MetalLBManager) (cn ip : String) (k n : Nat) (cur : List Nat)
    (pfx3 : String) (hsplit : splitIpPfx ip = some pfx3)
    (hcap : n ≤ (mm.maxOctetRange - mm.minOctetRange + 1) / 20) :
    generateMetalLBIPRange mm cn ip k n cur =
      (let comb := mm.allNodeIPs ++ cur
       let s0 := mm.minOctetRange + (k - 1) * 20
       let e0 := if s0 + 20 - 1 > mm.maxOctetRange then mm.maxOctetRange else s0 + 20 - 1
       let w1 := resolveRangeConflict mm comb pfx3 20 s0 e0
       let w2 := adjustRangeForNodeIPs mm w1.1 w1.2 comb
       .ok (renderIPRange pfx3 w2.1 w2.2,
         { clusterName := cn, ipPfx := pfx3, startOctet := w2.1, endOctet := w2.2,
           nodeIPs := cur, ipRange := renderIPRange pfx3 w2.1 w2.2 })) := by
  unfold generateMetalLBIPRange
  rw [hsplit]
  simp only []
  rw [if_neg (by omega)]

lemma generate_error_eq (mm : MetalLBManager) (cn ip : String) (k n : Nat) (cur : List Nat)
    (pfx3 : String) (hsplit : splitIpPfx ip = some pfx3)
    (hcap : n > (mm.maxOctetRange - mm.minOctetRange + 1) / 20) :
    generateMetalLBIPRange mm cn ip k n cur =
      .error ("not enough IPs available: need " ++ toString n ++
        " clusters but only " ++ toString ((mm.maxOctetRange - mm.minOctetRange + 1) / 20) ++
        " can fit in range " ++ toString mm.minOctetRange ++ "-" ++
        toString mm.maxOctetRange ++ " (20 IPs per cluster)") := by
  unfold generateMetalLBIPRange
  rw [hsplit]
  simp only []
  rw [if_pos (by omega)]

/-- Claim C2: with ipsPerCluster fixed at 20 and
maxClusters = (maxOctet − minOctet + 1) / 20 (integer division), every
allocation request with totalClusters > maxClusters fails with the
capacity-exceeded error and performs no ledger write (the store is
returned untouched); concretely, with octet window [200, 254],
maxClusters = 2 and a request for a 3rd cluster fails. -/
theorem claim2_capacity_exceeded :
    (∀ (store : Option (List MetalLBAllocation)) (mm : MetalLBManager)
       (cn ip : String) (k n : Nat) (cur : List Nat) (pfx3 : String),
      splitIpPfx ip = some pfx3 →
      n > (mm.maxOctetRange - mm.minOctetRange + 1) / 20 →
      configureMetalLB store mm cn ip k n cur =
        (store, mm, .error ("not enough IPs available: need " ++ toString n ++
          " clusters but only " ++ toString ((mm.maxOctetRange - mm.minOctetRange + 1) / 20) ++
          " can fit in range " ++ toString mm.minOctetRange ++ "-" ++
          toString mm.maxOctetRange ++ " (20 IPs per cluster)"))) ∧
    ((254 - 200 + 1) / 20 = 2 ∧
     configureMetalLB none ⟨200, 254, [], [], []⟩ "cluster-3" "192.168.102.50" 3 3 [] =
       (none, ⟨200, 254, [], [], []⟩,
        .error "not enough IPs available: need 3 clusters but only 2 can fit in range 200-254 (20 IPs per cluster)")) := by
  constructor
  · intro store mm cn ip k n cur pfx3 hsplit hcap
    unfold configureMetalLB
    rw [generate_error_eq mm cn ip k n cur pfx3 hsplit hcap]
  · exact ⟨by norm_num, by rfl⟩

lemma findNextWithin_spec (mm : MetalLBManager) (nodeIPs : List Nat) (pfx3 : String)
    (rangeSize : Nat) : ∀ (fuel s e : Nat) (r : Nat × Nat),
    findNextAvailableRangeWithin mm nodeIPs pfx3 rangeSize fuel s e = some r →
    findNextAvailableRangeLoop mm nodeIPs pfx3 rangeSize fuel s e = r ∧
    mm.usedRanges.contains (rangeKey pfx3 r.1 r.2) = false ∧
    hasNodeIPInRange r.1 r.2 nodeIPs = false := by
  intro fuel
  induction fuel with
  | zero =>
    intro s e r h
    simp [findNextAvailableRangeWithin] at h
  | succ fuel ih =>
    intro s e r h
    simp only [findNextAvailableRangeWithin] at h
    simp only [findNextAvailableRangeLoop]
    by_cases hc : mm.usedRanges.contains (rangeKey pfx3 s e) = true
    · rw [if_pos hc] at h ⊢
      by_cases hb : s + 1 + rangeSize - 1 > mm.maxOctetRange
      · rw [if_pos hb] at h ⊢
        exact ih _ _ r h
      · rw [if_neg hb] at h ⊢
        exact ih _ _ r h
    · rw [if_neg hc] at h ⊢
      by_cases hn : hasNodeIPInRange s e nodeIPs = true
      · rw [if_pos hn] at h ⊢
        by_cases hb : s + 1 + rangeSize - 1 > mm.maxOctetRange
        · rw [if_pos hb] at h ⊢
          exact ih _ _ r h
        · rw [if_neg hb] at h ⊢
          exact ih _ _ r h
      · rw [if_neg hn] at h ⊢
        cases h
        exact ⟨rfl, by simpa using hc, by simpa using hn⟩

/-- Claim C1 (amended): for every ledger state, an allocation whose
range-conflict search (when triggered) succeeds within its 100-attempt
budget and whose node-IP pass leaves the resulting window unchanged
returns a range whose key is not in the pre-existing usedRanges set.
(The two excluded paths — budget exhaustion, and a node-IP shift that
moves the window after the range check — can return a used key; and
key-freshness does not make saved intervals disjoint, see the
counterexample.) -/
theorem claim1_key_freshness :
    ∀ (mm : MetalLBManager) (cn ip : String) (k n : Nat) (cur : List Nat)
      (pfx3 : String) (s0 e0 s1 e1 : Nat),
      splitIpPfx ip = some pfx3 →
      n ≤ (mm.maxOctetRange - mm.minOctetRange + 1) / 20 →
      s0 = mm.minOctetRange + (k - 1) * 20 →
      e0 = (if s0 + 20 - 1 > mm.maxOctetRange then mm.maxOctetRange else s0 + 20 - 1) →
      (mm.usedRanges.contains (rangeKey pfx3 s0 e0) = true →
        findNextAvailableRangeWithin mm (mm.allNodeIPs ++ cur) pfx3 20 100 s0 e0 =
          some (s1, e1)) →
      (mm.usedRanges.contains (rangeKey pfx3 s0 e0) = false → (s1, e1) = (s0, e0)) →
      adjustRangeForNodeIPs mm s1 e1 (mm.allNodeIPs ++ cur) = (s1, e1) →
      generateMetalLBIPRange mm cn ip k n cur =
        .ok (renderIPRange pfx3 s1 e1,
          { clusterName := cn, ipPfx := pfx3, startOctet := s1, endOctet := e1,
            nodeIPs := cur, ipRange := renderIPRange pfx3 s1 e1 }) ∧
      mm.usedRanges.contains (rangeKey pfx3 s1 e1) = false := by
  intro mm cn ip k n cur pfx3 s0 e0 s1 e1 hsplit hcap hs0 he0 hsearch hnosearch hadjust
  have hres : resolveRangeConflict mm (mm.allNodeIPs ++ cur) pfx3 20 s0 e0 = (s1, e1) ∧
      mm.usedRanges.contains (rangeKey pfx3 s1 e1) = false := by
    unfold resolveRangeConflict
    cases hu : mm.usedRanges.contains (rangeKey pfx3 s0 e0) with
    | false =>
      have hp := hnosearch hu
      have h1 : s1 = s0 := congrArg Prod.fst hp
      have h2 : e1 = e0 := congrArg Prod.snd hp
      subst h1; subst h2
      exact ⟨by simp, hu⟩
    | true =>
      have hspec := findNextWithin_spec mm (mm.allNodeIPs ++ cur) pfx3 20 100 s0 e0 (s1, e1)
        (hsearch hu)
      unfold findNextAvailableRange
      simp only [if_pos]
      exact ⟨hspec.1, hspec.2.1⟩
  rw [generate_ok_eq mm cn ip k n cur pfx3 hsplit hcap]
  simp only []
  rw [← hs0, ← he0, hres.1, hadjust]
  exact ⟨rfl, hres.2⟩

/-- Ledger entry occupying window [220, 239] (counterexample ledger). -/
def allocRecorded220 : MetalLBAllocation :=
  ⟨"cluster-1", "192.168.102", 220, 239, [], "192.168.102.220-192.168.102.239"⟩

/-- A tracking state holding exactly `allocRecorded220`. -/
def mmRecorded220 : MetalLBManager :=
  ⟨200, 254, [("cluster-1", allocRecorded220)], [rangeKey "192.168.102" 220 239], []⟩

/-- The allocation the counterexample run produces. -/
def allocShifted221 : MetalLBAllocation :=
  ⟨"cluster-2", "192.168.102", 221, 240, [], "192.168.102.221-192.168.102.240"⟩

/-- Claim C1 counterexample: with one recorded allocation [220, 239]
(N = 1 ≤ maxClusters = 2) and a fresh ordinal-2 request, the range search
succeeds at its second attempt (no budget exhaustion, no node-IP shift),
and the returned key is fresh — yet after saving, the two ledger entries
share the prefix and their [startOctet, endOctet] intervals [220, 239]
and [221, 240] overlap, contradicting the claimed invariant. -/
theorem claim1_counterexample :
    (findNextAvailableRangeWithin mmRecorded220 [] "192.168.102" 20 100 220 239 =
      some (221, 240)) ∧
    (adjustRangeForNodeIPs mmRecorded220 221 240 [] = (221, 240)) ∧
    (generateMetalLBIPRange mmRecorded220 "cluster-2" "192.168.102.50" 2 2 [] =
      .ok (allocShifted221.ipRange, allocShifted221)) ∧
    ((saveAllocation (some [allocRecorded220]) mmRecorded220 allocShifted221).1 =
      some [allocRecorded220, allocShifted221]) ∧
    (allocRecorded220.ipPfx = allocShifted221.ipPfx ∧
     allocShifted221.startOctet ≤ allocRecorded220.endOctet ∧
     allocRecorded220.startOctet ≤ allocShifted221.endOctet) :=
  ⟨by rfl, by rfl, by rfl, by rfl, by decide⟩

/-- A tracking state in which the ordinal-1 window key is already used. -/
def mmUsed200 : MetalLBManager :=
  ⟨200, 254, [], [rangeKey "192.168.102" 200 219], []⟩

/-- Witness for claim C1: with key 200-219 used, the ordinal-1 request
triggers the search, which succeeds at once with the fresh window
[201, 220]. -/
theorem claim1_key_freshness_witness :
    generateMetalLBIPRange mmUsed200 "cluster-2" "192.168.102.50" 1 2 [] =
      .ok (renderIPRange "192.168.102" 201 220,
        { clusterName := "cluster-2", ipPfx := "192.168.102", startOctet := 201,
          endOctet := 220, nodeIPs := [], ipRange := renderIPRange "192.168.102" 201 220 }) ∧
    mmUsed200.usedRanges.contains (rangeKey "192.168.102" 201 220) = false :=
  claim1_key_freshness mmUsed200 "cluster-2" "192.168.102.50" 1 2 [] "192.168.102"
    200 219 201 220 (by rfl) (by decide) (by decide) (by decide)
    (fun _ => by rfl) (by decide) (by rfl)

/-- Witness for claim C2: the concrete [200, 254] window with a 3-cluster
request errors and leaves the (empty) ledger untouched. -/
theorem claim2_capacity_exceeded_witness :
    splitIpPfx "192.168.102.50" = some "192.168.102" ∧
    3 > ((254 : Nat) - 200 + 1) / 20 ∧
    configureMetalLB none ⟨200, 254, [], [], []⟩ "cluster-3" "192.168.102.50" 3 3 [] =
      (none, ⟨200, 254, [], [], []⟩,
       .error "not enough IPs available: need 3 clusters but only 2 can fit in range 200-254 (20 IPs per cluster)") :=
  ⟨by rfl, by decide,
   claim2_capacity_exceeded.1 none ⟨200, 254, [], [], []⟩ "cluster-3" "192.168.102.50" 3 3 []
     "192.168.102" (by rfl) (by decide)⟩

/-- Claim C6: the candidate window is
[minOctet + (ordinal − 1)·20, start + 19] with the end clamped to
maxOctet, and the returned string is exactly "prefix.start-prefix.end";
concretely, ordinal 1 of 2 with node IP 192.168.102.50, no recorded
ranges and no node IP in the window yields
"192.168.102.200-192.168.102.219", and ordinal 2 after ordinal 1 is
recorded yields window [220, 239] untouched by any search. -/
theorem claim6_candidate_window :
    (∀ (mm : MetalLBManager) (cn ip : String) (k n : Nat) (cur : List Nat)
       (pfx3 : String) (s0 e0 : Nat),
      splitIpPfx ip = some pfx3 →
      n ≤ (mm.maxOctetRange - mm.minOctetRange + 1) / 20 →
      s0 = mm.minOctetRange + (k - 1) * 20 →
      e0 = (if s0 + 20 - 1 > mm.maxOctetRange then mm.maxOctetRange else s0 + 20 - 1) →
      mm.usedRanges.contains (rangeKey pfx3 s0 e0) = false →
      hasNodeIPInRange s0 e0 (mm.allNodeIPs ++ cur) = false →
      generateMetalLBIPRange mm cn ip k n cur =
        .ok (renderIPRange pfx3 s0 e0,
          { clusterName := cn, ipPfx := pfx3, startOctet := s0, endOctet := e0,
            nodeIPs := cur, ipRange := renderIPRange pfx3 s0 e0 })) ∧
    (generateMetalLBIPRange ⟨200, 254, [], [], []⟩ "cluster-1" "192.168.102.50" 1 2 [50] =
      .ok ("192.168.102.200-192.168.102.219",
        ⟨"cluster-1", "192.168.102", 200, 219, [50], "192.168.102.200-192.168.102.219"⟩)) ∧
    (generateMetalLBIPRange
        ⟨200, 254, [("cluster-1", ⟨"cluster-1", "192.168.102", 200, 219, [50],
          "192.168.102.200-192.168.102.219"⟩)],
         [rangeKey "192.168.102" 200 219], [50]⟩
        "cluster-2" "192.168.102.50" 2 2 [50] =
      .ok ("192.168.102.220-192.168.102.239",
        ⟨"cluster-2", "192.168.102", 220, 239, [50], "192.168.102.220-192.168.102.239"⟩)) := by
  refine ⟨?_, by rfl, by rfl⟩
  intro mm cn ip k n cur pfx3 s0 e0 hsplit hcap hs0 he0 hused hnode
  rw [generate_ok_eq mm cn ip k n cur pfx3 hsplit hcap]
  simp only []
  rw [← hs0, ← he0]
  have hres : resolveRangeConflict mm (mm.allNodeIPs ++ cur) pfx3 20 s0 e0 = (s0, e0) := by
    unfold resolveRangeConflict
    rw [if_neg (by simp only [hused]; decide)]
  have hadj : adjustRangeForNodeIPs mm s0 e0 (mm.allNodeIPs ++ cur) = (s0, e0) := by
    unfold adjustRangeForNodeIPs
    rw [if_neg (by simp only [hnode]; decide)]
  rw [hres, hadj]

/-- Witness for claim C6: the ordinal-1 scenario applied through the
general window statement. -/
theorem claim6_candidate_window_witness :
    generateMetalLBIPRange ⟨200, 254, [], [], []⟩ "cluster-1" "192.168.102.50" 1 2 [50] =
      .ok (renderIPRange "192.168.102" 200 219,
        { clusterName := "cluster-1", ipPfx := "192.168.102", startOctet := 200,
          endOctet := 219, nodeIPs := [50], ipRange := renderIPRange "192.168.102" 200 219 }) :=
  claim6_candidate_window.1 ⟨200, 254, [], [], []⟩ "cluster-1" "192.168.102.50" 1 2 [50]
    "192.168.102" 200 219 (by rfl) (by decide) (by decide) (by decide) (by rfl) (by rfl)

lemma mem_foldl_track_used : ∀ (l : List MetalLBAllocation) (m : MetalLBManager) (key : String),
    key ∈ (l.foldl trackAllocation m).usedRanges ↔
      key ∈ m.usedRanges ∨ ∃ a ∈ l, rangeKey a.ipPfx a.startOctet a.endOctet = key := by
  intro l
  induction l with
  | nil => intro m key; simp
  | cons a l ih =>
    intro m key
    rw [List.foldl_cons, ih]
    simp only [trackAllocation, List.mem_cons, List.mem_cons]
    constructor
    · rintro (h | h)
      · rcases h with h | h
        · exact Or.inr ⟨a, Or.inl rfl, h.symm⟩
        · exact Or.inl h
      · rcases h with ⟨x, hx, hk⟩
        exact Or.inr ⟨x, Or.inr hx, hk⟩
    · rintro (h | ⟨x, hx | hx, hk⟩)
      · exact Or.inl (Or.inr h)
      · subst hx
        exact Or.inl (Or.inl hk.symm)
      · exact Or.inr ⟨x, hx, hk⟩

lemma mem_foldl_track_nodes : ∀ (l : List MetalLBAllocation) (m : MetalLBManager) (i : Nat),
    i ∈ (l.foldl trackAllocation m).allNodeIPs ↔
      i ∈ m.allNodeIPs ∨ ∃ a ∈ l, i ∈ a.nodeIPs := by
  intro l
  induction l with
  | nil => intro m i; simp
  | cons a l ih =>
    intro m i
    rw [List.foldl_cons, ih]
    simp only [trackAllocation, List.mem_append, List.mem_cons]
    constructor
    · rintro ((h | h) | ⟨x, hx, hi⟩)
      · exact Or.inl h
      · exact Or.inr ⟨a, Or.inl rfl, h⟩
      · exact Or.inr ⟨x, Or.inr hx, hi⟩
    · rintro (h | ⟨x, hx | hx, hi⟩)
      · exact Or.inl (Or.inl h)
      · subst hx
        exact Or.inl (Or.inr hi)
      · exact Or.inr ⟨x, hx, hi⟩

lemma mem_initializeTracking_used (store : Option (List MetalLBAllocation))
    (mm : MetalLBManager) (key : String) :
    key ∈ (initializeTracking store mm).usedRanges ↔
      ∃ a ∈ store.getD [], rangeKey a.ipPfx a.startOctet a.endOctet = key := by
  cases store with
  | none => simp [initializeTracking]
  | some l => simp [initializeTracking, mem_foldl_track_used]

lemma mem_initializeTracking_nodes (store : Option (List MetalLBAllocation))
    (mm : MetalLBManager) (i : Nat) :
    i ∈ (initializeTracking store mm).allNodeIPs ↔
      ∃ a ∈ store.getD [], i ∈ a.nodeIPs := by
  cases store with
  | none => simp [initializeTracking]
  | some l => simp [initializeTracking, mem_foldl_track_nodes]

lemma upsert_fresh (l : List MetalLBAllocation) (a : MetalLBAllocation)
    (h : ∀ x ∈ l, x.clusterName ≠ a.clusterName) : upsertAllocation l a = l ++ [a] := by
  induction l with
  | nil => rfl
  | cons x xs ih =>
    have hx := h x (List.mem_cons_self x xs)
    show (if x.clusterName == a.clusterName then a :: xs else x :: upsertAllocation xs a) = _
    rw [if_neg (by simpa using hx), ih (fun y hy => h y (List.mem_cons_of_mem x hy))]
    rfl

/-- Claim C4 (amended): when the saved allocation's clusterName is not
already present in the persisted ledger (the save is an append) and the
in-memory indexes were built from that ledger, SaveAllocation followed by
InitializeTracking reproduces exactly the same usedRanges and allNodeIPs
contents as immediately after the save, for every prior ledger state;
when the save replaces an existing entry with a different range, the
round-trip drops the replaced entry's stale key and node IPs from the
in-memory indexes (see the counterexample). -/
theorem claim4_roundtrip :
    ∀ (store : Option (List MetalLBAllocation)) (mm : MetalLBManager) (a : MetalLBAllocation),
      (∀ x ∈ store.getD [], x.clusterName ≠ a.clusterName) →
      ∀ (key : String) (i : Nat),
        (key ∈ (initializeTracking
            (saveAllocation store (initializeTracking store mm) a).1
            (saveAllocation store (initializeTracking store mm) a).2).usedRanges ↔
          key ∈ (saveAllocation store (initializeTracking store mm) a).2.usedRanges) ∧
        (i ∈ (initializeTracking
            (saveAllocation store (initializeTracking store mm) a).1
            (saveAllocation store (initializeTracking store mm) a).2).allNodeIPs ↔
          i ∈ (saveAllocation store (initializeTracking store mm) a).2.allNodeIPs) := by
  intro store mm a hfresh key i
  have hsv1 : (saveAllocation store (initializeTracking store mm) a).1 =
      some (store.getD [] ++ [a]) := by
    show some (upsertAllocation (store.getD []) a) = _
    rw [upsert_fresh _ _ hfresh]
  have hsv2 : (saveAllocation store (initializeTracking store mm) a).2 =
      trackAllocation (initializeTracking store mm) a := rfl
  rw [hsv1, hsv2]
  constructor
  · rw [mem_initializeTracking_used]
    simp only [Option.getD_some, trackAllocation, List.mem_cons, List.mem_append,
      List.mem_singleton, mem_initializeTracking_used]
    constructor
    · rintro ⟨x, hx | hx, hk⟩
      · exact Or.inr ⟨x, hx, hk⟩
      · rcases hx with rfl | hx0
        · exact Or.inl hk.symm
        · cases hx0
    · rintro (h | ⟨x, hx, hk⟩)
      · exact ⟨a, Or.inr (Or.inl rfl), h.symm⟩
      · exact ⟨x, Or.inl hx, hk⟩
  · rw [mem_initializeTracking_nodes]
    simp only [Option.getD_some, trackAllocation, List.mem_append, List.mem_singleton,
      mem_initializeTracking_nodes]
    constructor
    · rintro ⟨x, hx | hx, hi⟩
      · exact Or.inl ⟨x, hx, hi⟩
      · subst hx
        exact Or.inr hi
    · rintro (⟨x, hx, hi⟩ | h)
      · exact ⟨x, Or.inl hx, hi⟩
      · exact ⟨a, Or.inr rfl, h⟩

/-- Persisted entry for cluster-1 at [200, 219] (round-trip scenarios). -/
def allocRound1 : MetalLBAllocation :=
  ⟨"cluster-1", "192.168.102", 200, 219, [50], "192.168.102.200-192.168.102.219"⟩

/-- A replacement entry for the same cluster-1 at [220, 239]. -/
def allocRound2 : MetalLBAllocation :=
  ⟨"cluster-1", "192.168.102", 220, 239, [60], "192.168.102.220-192.168.102.239"⟩

/-- The state right after re-saving cluster-1 with the new range over a
ledger (and in-memory indexes) holding its old range. -/
def roundSaved : Option (List MetalLBAllocation) × MetalLBManager :=
  saveAllocation (some [allocRound1])
    (initializeTracking (some [allocRound1]) ⟨200, 254, [], [], []⟩) allocRound2

/-- Claim C4 counterexample: re-saving cluster-1 with a different range
keeps the old key 200-219 and old node IP 50 in the in-memory indexes,
but re-initialising from the persisted ledger (where the entry was
replaced) drops them — the round-trip does not reproduce the post-save
contents when the save replaces an entry. -/
theorem claim4_counterexample :
    roundSaved.2.usedRanges.contains (rangeKey "192.168.102" 200 219) = true ∧
    (initializeTracking roundSaved.1 roundSaved.2).usedRanges.contains
      (rangeKey "192.168.102" 200 219) = false ∧
    roundSaved.2.allNodeIPs.contains 50 = true ∧
    (initializeTracking roundSaved.1 roundSaved.2).allNodeIPs.contains 50 = false := by
  decide

/-- A fresh cluster-2 entry (append case of the round-trip). -/
def allocFresh2 : MetalLBAllocation :=
  ⟨"cluster-2", "192.168.102", 220, 239, [60], "192.168.102.220-192.168.102.239"⟩

/-- Witness for claim C4: the append-case round-trip applied to a ledger
holding cluster-1 when saving the fresh cluster-2 entry, checked at the
new entry's range key and node IP. -/
theorem claim4_roundtrip_witness :
    (∀ x ∈ (some [allocRound1] : Option (List MetalLBAllocation)).getD [],
      x.clusterName ≠ allocFresh2.clusterName) ∧
    ((rangeKey "192.168.102" 220 239 ∈ (initializeTracking
        (saveAllocation (some [allocRound1])
          (initializeTracking (some [allocRound1]) ⟨200, 254, [], [], []⟩) allocFresh2).1
        (saveAllocation (some [allocRound1])
          (initializeTracking (some [allocRound1]) ⟨200, 254, [], [], []⟩) allocFresh2).2).usedRanges ↔
      rangeKey "192.168.102" 220 239 ∈ (saveAllocation (some [allocRound1])
        (initializeTracking (some [allocRound1]) ⟨200, 254, [], [], []⟩) allocFresh2).2.usedRanges) ∧
     (60 ∈ (initializeTracking
        (saveAllocation (some [allocRound1])
          (initializeTracking (some [allocRound1]) ⟨200, 254, [], [], []⟩) allocFresh2).1
        (saveAllocation (some [allocRound1])
          (initializeTracking (some [allocRound1]) ⟨200, 254, [], [], []⟩) allocFresh2).2).allNodeIPs ↔
      60 ∈ (saveAllocation (some [allocRound1])
        (initializeTracking (some [allocRound1]) ⟨200, 254, [], [], []⟩) allocFresh2).2.allNodeIPs)) :=
  ⟨by decide,
   claim4_roundtrip (some [allocRound1]) ⟨200, 254, [], [], []⟩ allocFresh2 (by decide)
     (rangeKey "192.168.102" 220 239) 60⟩
